import Mathlib

/-
Verification of the Employee Onboarding Automation System configuration
module (src/config.py) and application bootstrap (src/main.py).

Python strings are modelled as Lean Strings (lists of characters); the
Python string operations used by the code (split, strip, lower, join,
startswith) are given explicit executable definitions below.  Machine-level
concerns (bytes from os.urandom) are modelled as lists of naturals below 256.
-/

set_option maxRecDepth 4000

/-- The whitespace characters removed by Python str.strip with no argument
(restricted to the ASCII range, which is all the code can encounter in
origin strings). -/
def isPySpace (c : Char) : Bool :=
  c = ' ' || c = '\t' || c = '\n' || c = '\x0d' || c = '\x0b' || c = '\x0c'

/-- Auxiliary worker for Python str.split on a comma: accumulates the
current field (reversed) and emits it at each separator.  Python's split
returns the singleton list of the whole string when no separator occurs,
and the singleton list of the empty string on empty input. -/
def splitCommaAux : List Char → List Char → List (List Char)
  | [], acc => [acc.reverse]
  | c :: cs, acc =>
    if c = ',' then acc.reverse :: splitCommaAux cs [] else splitCommaAux cs (c :: acc)

/-- Python s.split(",") on a string. -/
def pySplitComma (s : String) : List String :=
  (splitCommaAux s.toList []).map String.mk

/-- Python str.strip() on a list of characters: drop leading and trailing
whitespace. -/
def stripChars (l : List Char) : List Char :=
  ((l.dropWhile isPySpace).reverse.dropWhile isPySpace).reverse

/-- Python s.strip() on a string. -/
def pyStrip (s : String) : String :=
  String.mk (stripChars s.toList)

/-- Python ",".join(xs). -/
def joinComma : List String → String
  | [] => ""
  | [x] => x
  | x :: xs => x ++ "," ++ joinComma xs

/-- Python s.startswith("[") : whether the first character is an opening
square bracket. -/
def startsWithBracket (s : String) : Bool :=
  match s.toList with
  | '[' :: _ => true
  | _ => false

/-- Python s.lower() (ASCII case folding, which covers the flag values the
code compares against). -/
def pyLower (s : String) : String :=
  String.mk (s.toList.map Char.toLower)

/-- Characters JSON treats as insignificant whitespace. -/
def isJsonWs (c : Char) : Bool :=
  c = ' ' || c = '\t' || c = '\n' || c = '\x0d'

/-- Drop leading JSON whitespace. -/
def skipWs (l : List Char) : List Char :=
  l.dropWhile isJsonWs

/-- JSON values as produced by json.loads.  Numbers keep their source
lexeme, which is all the configuration code ever observes of them. -/
inductive Json where
  | null : Json
  | bool : Bool → Json
  | num : String → Json
  | str : String → Json
  | arr : List Json → Json
  | obj : List (String × Json) → Json

/-- Decode a single hexadecimal digit. -/
def hexDigit? (c : Char) : Option Nat :=
  if '0' ≤ c ∧ c ≤ '9' then some (c.toNat - '0'.toNat)
  else if 'a' ≤ c ∧ c ≤ 'f' then some (c.toNat - 'a'.toNat + 10)
  else if 'A' ≤ c ∧ c ≤ 'F' then some (c.toNat - 'A'.toNat + 10)
  else none

/-- Parse the body of a JSON string literal after the opening quote,
returning the decoded characters and the input remaining after the closing
quote.  Escape sequences follow RFC 8259; unescaped control characters are
rejected, as json.loads rejects them. -/
def parseStringBody : List Char → Option (List Char × List Char)
  | [] => none
  | '"' :: rest => some ([], rest)
  | '\\' :: e :: rest =>
    match e with
    | '"' => do let (s, r) ← parseStringBody rest; some ('"' :: s, r)
    | '\\' => do let (s, r) ← parseStringBody rest; some ('\\' :: s, r)
    | '/' => do let (s, r) ← parseStringBody rest; some ('/' :: s, r)
    | 'b' => do let (s, r) ← parseStringBody rest; some ('\x08' :: s, r)
    | 'f' => do let (s, r) ← parseStringBody rest; some ('\x0c' :: s, r)
    | 'n' => do let (s, r) ← parseStringBody rest; some ('\n' :: s, r)
    | 'r' => do let (s, r) ← parseStringBody rest; some ('\x0d' :: s, r)
    | 't' => do let (s, r) ← parseStringBody rest; some ('\t' :: s, r)
    | 'u' =>
      match rest with
      | h1 :: h2 :: h3 :: h4 :: rest2 => do
        let d1 ← hexDigit? h1
        let d2 ← hexDigit? h2
        let d3 ← hexDigit? h3
        let d4 ← hexDigit? h4
        let (s, r) ← parseStringBody rest2
        some (Char.ofNat (((d1 * 16 + d2) * 16 + d3) * 16 + d4) :: s, r)
      | _ => none
    | _ => none
  | c :: rest =>
    if c.toNat < 32 then none
    else do let (s, r) ← parseStringBody rest; some (c :: s, r)

/-- Take a run of decimal digits. -/
def takeDigits (l : List Char) : List Char × List Char :=
  (l.takeWhile Char.isDigit, l.dropWhile Char.isDigit)

/-- Lex a JSON number starting at the head of the input, returning its
lexeme and the rest.  The grammar is RFC 8259: optional minus, an integer
part with no leading zero, optional fraction, optional exponent. -/
def parseNumberLex (l : List Char) : Option (List Char × List Char) :=
  let (sign, l1) := match l with
    | '-' :: r => (['-'], r)
    | _ => ([], l)
  match l1 with
  | '0' :: r => afterInt sign ['0'] r
  | c :: _ =>
    if c.isDigit then
      let (ds, r) := takeDigits l1
      afterInt sign ds r
    else none
  | [] => none
where
  /-- Continue after the integer part with the optional fraction. -/
  afterInt (sign intPart : List Char) (l : List Char) : Option (List Char × List Char) :=
    match l with
    | '.' :: r =>
      let (ds, r2) := takeDigits r
      if ds = [] then none else afterFrac sign intPart ('.' :: ds) r2
    | _ => afterFrac sign intPart [] l
  /-- Continue after the fraction with the optional exponent. -/
  afterFrac (sign intPart frac : List Char) (l : List Char) :
      Option (List Char × List Char) :=
    match l with
    | 'e' :: r => afterExp sign intPart frac ['e'] r
    | 'E' :: r => afterExp sign intPart frac ['E'] r
    | _ => some (sign ++ intPart ++ frac, l)
  /-- Continue after the exponent marker. -/
  afterExp (sign intPart frac eMark : List Char) (l : List Char) :
      Option (List Char × List Char) :=
    let (esign, l2) := match l with
      | '+' :: r => (['+'], r)
      | '-' :: r => (['-'], r)
      | _ => ([], l)
    let (ds, l3) := takeDigits l2
    if ds = [] then none
    else some (sign ++ intPart ++ frac ++ eMark ++ esign ++ ds, l3)

mutual

/-- Parse one JSON value from the input (no leading whitespace), returning
the value and the remaining input.  The fuel argument bounds the recursion
depth; jsonLoads supplies more fuel than any input can consume. -/
def parseJsonValue : Nat → List Char → Option (Json × List Char)
  | 0, _ => none
  | Nat.succ f, l =>
    match l with
    | 'n' :: 'u' :: 'l' :: 'l' :: rest => some (Json.null, rest)
    | 't' :: 'r' :: 'u' :: 'e' :: rest => some (Json.bool true, rest)
    | 'f' :: 'a' :: 'l' :: 's' :: 'e' :: rest => some (Json.bool false, rest)
    | '"' :: rest => do
      let (s, r) ← parseStringBody rest
      some (Json.str (String.mk s), r)
    | '[' :: rest =>
      match skipWs rest with
      | ']' :: r => some (Json.arr [], r)
      | l2 => do
        let (items, r) ← parseJsonItems f l2
        some (Json.arr items, r)
    | '{' :: rest =>
      match skipWs rest with
      | '}' :: r => some (Json.obj [], r)
      | l2 => do
        let (members, r) ← parseJsonMembers f l2
        some (Json.obj members, r)
    | c :: _ =>
      if c = '-' ∨ c.isDigit then do
        let (lexeme, r) ← parseNumberLex l
        some (Json.num (String.mk lexeme), r)
      else none
    | [] => none

/-- Parse the comma-separated elements of a JSON array up to and including
the closing bracket. -/
def parseJsonItems : Nat → List Char → Option (List Json × List Char)
  | 0, _ => none
  | Nat.succ f, l => do
    let (v, rest) ← parseJsonValue f l
    match skipWs rest with
    | ',' :: r => do
      let (vs, rest2) ← parseJsonItems f (skipWs r)
      some (v :: vs, rest2)
    | ']' :: r => some ([v], r)
    | _ => none

/-- Parse the comma-separated members of a JSON object up to and including
the closing brace. -/
def parseJsonMembers : Nat → List Char → Option (List (String × Json) × List Char)
  | 0, _ => none
  | Nat.succ f, l =>
    match l with
    | '"' :: rest => do
      let (k, r1) ← parseStringBody rest
      match skipWs r1 with
      | ':' :: r2 => do
        let (v, r3) ← parseJsonValue f (skipWs r2)
        match skipWs r3 with
        | ',' :: r4 => do
          let (ms, r5) ← parseJsonMembers f (skipWs r4)
          some ((String.mk k, v) :: ms, r5)
        | '}' :: r4 => some ([(String.mk k, v)], r4)
        | _ => none
      | _ => none
    | _ => none

end

/-- Python json.loads restricted to what the configuration code can
observe: parse a complete JSON document, requiring only whitespace after
the value.  Returns none exactly when json.loads raises JSONDecodeError. -/
def jsonLoads (s : String) : Option Json :=
  match parseJsonValue (2 * s.toList.length + 4) (skipWs s.toList) with
  | some (v, rest) => if skipWs rest = [] then some v else none
  | none => none


/-- Errors that abort a settings load or an attribute access, corresponding
to the Python exceptions the two modules can raise. -/
inductive PyError where
  | jsonDecodeError : PyError
  | validationError : PyError
  | attributeError : String → PyError
deriving DecidableEq

/-- Coercion pydantic v1 applies to one element of a List[str] field:
strings pass through, numbers and booleans are stringified via str(),
everything else is a validation error.  A Python bool prints as True or
False. -/
def pydanticStrElem : Json → Except PyError String
  | Json.str s => Except.ok s
  | Json.num lexeme => Except.ok lexeme
  | Json.bool true => Except.ok "True"
  | Json.bool false => Except.ok "False"
  | _ => Except.error PyError.validationError

/-- Validation pydantic v1 applies to a List[str] field value produced by
the CORS_ORIGINS validator's json.loads branch. -/
def pydanticStrList (j : Json) : Except PyError (List String) :=
  match j with
  | Json.arr items => items.mapM pydanticStrElem
  | _ => Except.error PyError.validationError

/-- The value handed to the CORS_ORIGINS pre-validator: Python's
Union[str, List[str]]. -/
inductive CorsValue where
  | str : String → CorsValue
  | list : List String → CorsValue
deriving DecidableEq

/-- Settings.validate_cors_origins (src/config.py lines 83-91): a string
that does not start with an opening bracket is split on commas and each
field stripped; any other string goes through json.loads (whose failure
aborts validation) followed by the List[str] field validation; a list is
returned unchanged. -/
def validate_cors_origins : CorsValue → Except PyError (List String)
  | CorsValue.str s =>
    if startsWithBracket s = false then
      Except.ok ((pySplitComma s).map pyStrip)
    else
      match jsonLoads s with
      | none => Except.error PyError.jsonDecodeError
      | some j => pydanticStrList j
  | CorsValue.list l => Except.ok l

/-- Settings.validate_database_url (src/config.py lines 76-81): in the
test environment the URL is forced to the test database, otherwise the
supplied value is kept. -/
def validate_database_url (env : String) (v : String) : String :=
  if env = "test" then "sqlite:///./test_onboarding.db" else v

/-- The 64-character URL-safe base64 alphabet used by
base64.urlsafe_b64encode. -/
def b64Alphabet : List Char :=
  "ABCDEFGHIJKLMNOPQRSTUVWXYZabcdefghijklmnopqrstuvwxyz0123456789-_".toList

/-- Character for a six-bit group. -/
def b64Char (n : Nat) : Char :=
  b64Alphabet.getD n 'A'

/-- Index of a base64url character in the alphabet. -/
def b64Index (c : Char) : Option Nat :=
  b64Alphabet.findIdx? (fun d => d = c)

/-- base64.urlsafe_b64encode with the trailing pad characters stripped,
which is what secrets.token_urlsafe produces.  Bytes are naturals below
256. -/
def b64encode : List Nat → List Char
  | [] => []
  | [b1] => [b64Char (b1 / 4), b64Char (b1 % 4 * 16)]
  | [b1, b2] => [b64Char (b1 / 4), b64Char (b1 % 4 * 16 + b2 / 16), b64Char (b2 % 16 * 4)]
  | b1 :: b2 :: b3 :: rest =>
    b64Char (b1 / 4) :: b64Char (b1 % 4 * 16 + b2 / 16) ::
      b64Char (b2 % 16 * 4 + b3 / 64) :: b64Char (b3 % 64) :: b64encode rest

/-- Left inverse of b64encode, used to establish that distinct entropy
always yields distinct tokens. -/
def b64decode : List Char → Option (List Nat)
  | [] => some []
  | [c1, c2] => do
    let n1 ← b64Index c1
    let n2 ← b64Index c2
    some [n1 * 4 + n2 / 16]
  | [c1, c2, c3] => do
    let n1 ← b64Index c1
    let n2 ← b64Index c2
    let n3 ← b64Index c3
    some [n1 * 4 + n2 / 16, n2 % 16 * 16 + n3 / 4]
  | c1 :: c2 :: c3 :: c4 :: rest => do
    let n1 ← b64Index c1
    let n2 ← b64Index c2
    let n3 ← b64Index c3
    let n4 ← b64Index c4
    let bs ← b64decode rest
    some ((n1 * 4 + n2 / 16) :: (n2 % 16 * 16 + n3 / 4) :: (n3 % 4 * 64 + n4) :: bs)
  | _ => none

/-- secrets.token_urlsafe applied to the given entropy bytes: URL-safe
base64 without padding, as a text string. -/
def tokenUrlsafe (entropy : List Nat) : String :=
  String.mk (b64encode entropy)

/-- The settings record of src/config.py lines 26-97, one field per
declared pydantic field.  Paths are carried as the strings they render
to. -/
structure Settings where
  APP_NAME : String
  APP_VERSION : String
  APP_DESCRIPTION : String
  DEBUG : Bool
  ENVIRONMENT : String
  SECRET_KEY : String
  ACCESS_TOKEN_EXPIRE_MINUTES : Nat
  ALGORITHM : String
  CORS_ORIGINS : List String
  DATABASE_URL : String
  DATABASE_POOL_SIZE : Nat
  DATABASE_MAX_OVERFLOW : Nat
  DATABASE_POOL_TIMEOUT : Nat
  AWS_REGION : Option String
  AWS_ACCESS_KEY_ID : Option String
  AWS_SECRET_ACCESS_KEY : Option String
  S3_BUCKET_NAME : Option String
  SMTP_SERVER : String
  SMTP_PORT : Nat
  SMTP_USERNAME : Option String
  SMTP_PASSWORD : Option String
  EMAILS_FROM_EMAIL : String
  EMAILS_FROM_NAME : String
  MAX_UPLOAD_SIZE : Nat
  ALLOWED_DOCUMENT_TYPES : List String
  WORKFLOW_DEFINITIONS_PATH : String
  API_V1_PREFIX : String
  LOG_LEVEL : String
  LOG_FORMAT : String
  LOG_FILE : String
deriving DecidableEq

/-- Externally supplied values for the fields the reviewed code reads or
overrides; a none field falls back to its declared default.  Pydantic v1
validators without always=True run only on supplied values, so unset
fields skip their validators. -/
structure SettingsInput where
  ENVIRONMENT : Option String := none
  DEBUG : Option Bool := none
  SECRET_KEY : Option String := none
  CORS_ORIGINS : Option CorsValue := none
  DATABASE_URL : Option String := none
  LOG_LEVEL : Option String := none
deriving DecidableEq

/-- Construction of the Settings object (src/config.py line 100) from the
supplied values, the declared defaults, and the validators.  The entropy
bytes feed the SECRET_KEY default factory secrets.token_urlsafe(32). -/
def loadSettings (inp : SettingsInput) (entropy : List Nat) : Except PyError Settings := do
  let env := inp.ENVIRONMENT.getD "development"
  let cors ← match inp.CORS_ORIGINS with
    | none => Except.ok ["*"]
    | some v => validate_cors_origins v
  let dbUrl := match inp.DATABASE_URL with
    | none => "sqlite:///./onboarding.db"
    | some v => validate_database_url env v
  Except.ok
    { APP_NAME := "Employee Onboarding Automation System"
      APP_VERSION := "1.0.0"
      APP_DESCRIPTION := "Automate and optimize employee onboarding processes"
      DEBUG := inp.DEBUG.getD false
      ENVIRONMENT := env
      SECRET_KEY := inp.SECRET_KEY.getD (tokenUrlsafe entropy)
      ACCESS_TOKEN_EXPIRE_MINUTES := 60 * 24
      ALGORITHM := "HS256"
      CORS_ORIGINS := cors
      DATABASE_URL := dbUrl
      DATABASE_POOL_SIZE := 5
      DATABASE_MAX_OVERFLOW := 10
      DATABASE_POOL_TIMEOUT := 30
      AWS_REGION := none
      AWS_ACCESS_KEY_ID := none
      AWS_SECRET_ACCESS_KEY := none
      S3_BUCKET_NAME := none
      SMTP_SERVER := "smtp.gmail.com"
      SMTP_PORT := 587
      SMTP_USERNAME := none
      SMTP_PASSWORD := none
      EMAILS_FROM_EMAIL := "noreply@onboardingsystem.com"
      EMAILS_FROM_NAME := "Onboarding System"
      MAX_UPLOAD_SIZE := 10 * 1024 * 1024
      ALLOWED_DOCUMENT_TYPES := ["application/pdf", "image/jpeg", "image/png"]
      WORKFLOW_DEFINITIONS_PATH := "workflows/definitions"
      API_V1_PREFIX := "/api/v1"
      LOG_LEVEL := inp.LOG_LEVEL.getD "INFO"
      LOG_FORMAT := "%(asctime)s - %(name)s - %(levelname)s - %(message)s"
      LOG_FILE := "logs/app.log" }

/-- The environment-specific override block of src/config.py lines
102-118, applied to the loaded settings object. -/
def applyOverrides (s : Settings) : Settings :=
  if s.ENVIRONMENT = "production" then
    { s with DEBUG := false, CORS_ORIGINS := ["https://onboarding.example.com"] }
  else if s.ENVIRONMENT = "development" then
    { s with DEBUG := true, LOG_LEVEL := "DEBUG" }
  else if s.ENVIRONMENT = "test" then
    { s with
        DEBUG := true
        DATABASE_URL := "sqlite:///./test_onboarding.db"
        LOG_LEVEL := "DEBUG" }
  else s

/-- Settings load followed by the module-level override block, which is
what importing src/config.py performs. -/
def loadAndOverride (inp : SettingsInput) (entropy : List Nat) : Except PyError Settings :=
  (loadSettings inp entropy).map applyOverrides

/-- A Python attribute value of the settings object, as observed through
getattr. -/
inductive AttrValue where
  | str : String → AttrValue
  | bool : Bool → AttrValue
  | nat : Nat → AttrValue
  | strList : List String → AttrValue
  | optStr : Option String → AttrValue
deriving DecidableEq

/-- Python attribute lookup on the settings object: exactly the fields the
Settings class declares resolve; any other name raises AttributeError,
modelled as none. -/
def settingsGetattr (s : Settings) (attr : String) : Option AttrValue :=
  match attr with
  | "APP_NAME" => some (AttrValue.str s.APP_NAME)
  | "APP_VERSION" => some (AttrValue.str s.APP_VERSION)
  | "APP_DESCRIPTION" => some (AttrValue.str s.APP_DESCRIPTION)
  | "DEBUG" => some (AttrValue.bool s.DEBUG)
  | "ENVIRONMENT" => some (AttrValue.str s.ENVIRONMENT)
  | "SECRET_KEY" => some (AttrValue.str s.SECRET_KEY)
  | "ACCESS_TOKEN_EXPIRE_MINUTES" => some (AttrValue.nat s.ACCESS_TOKEN_EXPIRE_MINUTES)
  | "ALGORITHM" => some (AttrValue.str s.ALGORITHM)
  | "CORS_ORIGINS" => some (AttrValue.strList s.CORS_ORIGINS)
  | "DATABASE_URL" => some (AttrValue.str s.DATABASE_URL)
  | "DATABASE_POOL_SIZE" => some (AttrValue.nat s.DATABASE_POOL_SIZE)
  | "DATABASE_MAX_OVERFLOW" => some (AttrValue.nat s.DATABASE_MAX_OVERFLOW)
  | "DATABASE_POOL_TIMEOUT" => some (AttrValue.nat s.DATABASE_POOL_TIMEOUT)
  | "AWS_REGION" => some (AttrValue.optStr s.AWS_REGION)
  | "AWS_ACCESS_KEY_ID" => some (AttrValue.optStr s.AWS_ACCESS_KEY_ID)
  | "AWS_SECRET_ACCESS_KEY" => some (AttrValue.optStr s.AWS_SECRET_ACCESS_KEY)
  | "S3_BUCKET_NAME" => some (AttrValue.optStr s.S3_BUCKET_NAME)
  | "SMTP_SERVER" => some (AttrValue.str s.SMTP_SERVER)
  | "SMTP_PORT" => some (AttrValue.nat s.SMTP_PORT)
  | "SMTP_USERNAME" => some (AttrValue.optStr s.SMTP_USERNAME)
  | "SMTP_PASSWORD" => some (AttrValue.optStr s.SMTP_PASSWORD)
  | "EMAILS_FROM_EMAIL" => some (AttrValue.str s.EMAILS_FROM_EMAIL)
  | "EMAILS_FROM_NAME" => some (AttrValue.str s.EMAILS_FROM_NAME)
  | "MAX_UPLOAD_SIZE" => some (AttrValue.nat s.MAX_UPLOAD_SIZE)
  | "ALLOWED_DOCUMENT_TYPES" => some (AttrValue.strList s.ALLOWED_DOCUMENT_TYPES)
  | "WORKFLOW_DEFINITIONS_PATH" => some (AttrValue.str s.WORKFLOW_DEFINITIONS_PATH)
  | "API_V1_PREFIX" => some (AttrValue.str ( Settings.API_V1_PREFIX s))
  | "LOG_LEVEL" => some (AttrValue.str s.LOG_LEVEL)
  | "LOG_FORMAT" => some (AttrValue.str ( Settings.LOG_FORMAT s))
  | "LOG_FILE" => some (AttrValue.str s.LOG_FILE)
  | _ => none

/-- Rendering of an attribute value inside a Python f-string. -/
def attrValueText : AttrValue → String
  | AttrValue.str s => s
  | AttrValue.bool true => "True"
  | AttrValue.bool false => "False"
  | AttrValue.nat n => toString n
  | AttrValue.strList l => String.intercalate ", " l
  | AttrValue.optStr (some s) => s
  | AttrValue.optStr none => "None"

/-- The feature-flag dictionary of src/config.py lines 136-141, as a
function of the process environment (os.getenv). -/
def FEATURES (getenv : String → Option String) : List (String × Bool) :=
  [("AI_DOCUMENT_PROCESSING",
      pyLower ((getenv "FEATURE_AI_DOCUMENT_PROCESSING").getD "false") == "true"),
   ("AUTOMATED_BACKGROUND_CHECK",
      pyLower ((getenv "FEATURE_AUTOMATED_BACKGROUND_CHECK").getD "false") == "true"),
   ("DIGITAL_SIGNATURES",
      pyLower ((getenv "FEATURE_DIGITAL_SIGNATURES").getD "true") == "true"),
   ("INTEGRATION_HRIS",
      pyLower ((getenv "FEATURE_INTEGRATION_HRIS").getD "false") == "true")]

/-- Modelled from the spec: the authenticated caller resolved by
app.core.auth.get_current_active_user, which is not under src/; the spec
only distinguishes privileged (superuser) callers from others. -/
structure User where
  is_superuser : Bool
deriving DecidableEq

/-- Possible outcomes of the GET /docs handler. -/
inductive DocsResponse where
  | httpError : Nat → String → DocsResponse
  | swaggerPage : String → String → DocsResponse
  | attrError : String → DocsResponse
deriving DecidableEq

/-- The page-building tail of the /docs handler (src/main.py lines 95-99):
get_swagger_ui_html with an openapi URL interpolating settings.API_V1_STR
and a title interpolating settings.PROJECT_NAME.  Python evaluates the
attribute accesses in argument order, so the first missing attribute
raises. -/
def buildDocsPage (s : Settings) : DocsResponse :=
  match settingsGetattr s "API_V1_STR" with
  | none => DocsResponse.attrError "API_V1_STR"
  | some v =>
    match settingsGetattr s "PROJECT_NAME" with
    | none => DocsResponse.attrError "PROJECT_NAME"
    | some p =>
      DocsResponse.swaggerPage (attrValueText v ++ "/openapi.json")
        (attrValueText p ++ " - API Documentation")

/-- The GET /docs handler custom_swagger_ui_html (src/main.py lines
83-99): outside the development environment the resolved caller must be a
superuser, otherwise a 403 is raised; then the Swagger page is built. -/
def custom_swagger_ui_html (s : Settings) (caller : User) : DocsResponse :=
  if s.ENVIRONMENT ≠ "development" then
    if caller.is_superuser = false then
      DocsResponse.httpError 403 "Not authorized to access documentation"
    else buildDocsPage s
  else buildDocsPage s

/-- The JSON body returned by the GET / handler. -/
structure RootResponse where
  system : String
  version : String
  status : String
  docs : String
  health : String
deriving DecidableEq

/-- The GET / handler root (src/main.py lines 101-110), modelled with
explicit state passing over an arbitrary application state to record that
it touches no state. -/
def root {α : Type} (st : α) : RootResponse × α :=
  ({ system := "Employee Onboarding Automation System"
     version := "1.0.0"
     status := "operational"
     docs := "/docs"
     health := "/health" }, st)

/-- A database table: its name and its stored rows. -/
structure Table where
  name : String
  rows : List String
deriving DecidableEq

/-- Whether a table of the given name exists in the database. -/
def hasTable (db : List Table) (n : String) : Bool :=
  db.any fun t => t.name = n

/-- Modelled from the spec: Base.metadata.create_all executed at startup
(src/main.py line 47).  The declared tables come from app.models, which is
not under src/, so they are a parameter; per the spec the operation
creates each declared table that is missing and never drops or modifies
existing tables. -/
def create_all (declared : List String) (db : List Table) : List Table :=
  declared.foldl
    (fun d n => if hasTable d n then d else d ++ [{ name := n, rows := [] }]) db

/-- Events in the application lifespan (src/main.py lines 33-54), in the
order the lifespan context manager and the serving loop emit them. -/
inductive Event where
  | startupLog : Event
  | loggingInit : Event
  | tablesLog : Event
  | createTables : Event
  | startupDone : Event
  | request : Nat → Event
  | shutdownLog : Event
  | shutdownDone : Event
deriving DecidableEq

/-- The event trace of one application run: the awaited startup phase of
the lifespan context manager, then the serving loop (one event per handled
request), then the shutdown phase after the yield. -/
def lifespanTrace (reqs : List Nat) : List Event :=
  [Event.startupLog, Event.loggingInit, Event.tablesLog, Event.createTables,
    Event.startupDone] ++ reqs.map Event.request ++
    [Event.shutdownLog, Event.shutdownDone]

/-- The constructor arguments of the FastAPI application and its CORS
middleware that src/main.py lines 56-74 derive from settings. -/
structure AppConfig where
  docTitle : String
  version : String
  openapiUrl : String
  allowOrigins : List String
deriving DecidableEq

/-- The application bootstrap of src/main.py lines 56-74: FastAPI(...) is
called with title=settings.PROJECT_NAME, the hardcoded version string
"1.0.0" and an openapi URL interpolating settings.API_V1_STR, and the CORS
middleware receives settings.BACKEND_CORS_ORIGINS; each attribute access
is resolved through getattr in evaluation order. -/
def buildApp (s : Settings) : Except PyError AppConfig :=
  match settingsGetattr s "PROJECT_NAME" with
  | none => Except.error (PyError.attributeError "PROJECT_NAME")
  | some t =>
    match settingsGetattr s "API_V1_STR" with
    | none => Except.error (PyError.attributeError "API_V1_STR")
    | some pfx =>
      match settingsGetattr s "BACKEND_CORS_ORIGINS" with
      | none => Except.error (PyError.attributeError "BACKEND_CORS_ORIGINS")
      | some origins =>
        Except.ok
          { docTitle := attrValueText t
            version := "1.0.0"
            openapiUrl := attrValueText pfx ++ "/openapi.json"
            allowOrigins :=
              match origins with
              | AttrValue.strList l => l
              | _ => [] }

/-- The default settings object, with the secret key produced from the
given entropy; used as a concrete evaluation point. -/
def defaultSettings (entropy : List Nat) : Settings :=
  match loadSettings {} entropy with
  | Except.ok s => s
  | Except.error _ => applyOverrides (applyOverrides
      { APP_NAME := "", APP_VERSION := "", APP_DESCRIPTION := "", DEBUG := false,
        ENVIRONMENT := "", SECRET_KEY := "", ACCESS_TOKEN_EXPIRE_MINUTES := 0,
        ALGORITHM := "", CORS_ORIGINS := [], DATABASE_URL := "",
        DATABASE_POOL_SIZE := 0, DATABASE_MAX_OVERFLOW := 0,
        DATABASE_POOL_TIMEOUT := 0, AWS_REGION := none, AWS_ACCESS_KEY_ID := none,
        AWS_SECRET_ACCESS_KEY := none, S3_BUCKET_NAME := none, SMTP_SERVER := "",
        SMTP_PORT := 0, SMTP_USERNAME := none, SMTP_PASSWORD := none,
        EMAILS_FROM_EMAIL := "", EMAILS_FROM_NAME := "", MAX_UPLOAD_SIZE := 0,
        ALLOWED_DOCUMENT_TYPES := [], WORKFLOW_DEFINITIONS_PATH := "",
        API_V1_PREFIX := "", LOG_LEVEL := "", LOG_FORMAT := "", LOG_FILE := "" })

/-- C1: for every supported ENVIRONMENT value, loading the settings and
applying the post-load override block yields the documented values:
production forces DEBUG off and the single production CORS origin;
development forces DEBUG on and verbose logging; test forces DEBUG on, the
test database URL and verbose logging. -/
theorem settings_env_overrides_correct :
    ∀ entropy : List Nat,
      (∃ s, loadAndOverride { ENVIRONMENT := some "production" } entropy = Except.ok s ∧
        s.DEBUG = false ∧ s.CORS_ORIGINS = ["https://onboarding.example.com"]) ∧
      (∃ s, loadAndOverride { ENVIRONMENT := some "development" } entropy = Except.ok s ∧
        s.DEBUG = true ∧ s.LOG_LEVEL = "DEBUG") ∧
      (∃ s, loadAndOverride { ENVIRONMENT := some "test" } entropy = Except.ok s ∧
        s.DEBUG = true ∧ s.DATABASE_URL = "sqlite:///./test_onboarding.db" ∧
        s.LOG_LEVEL = "DEBUG") := by
  intro entropy
  exact ⟨⟨_, rfl, rfl, rfl⟩, ⟨_, rfl, rfl, rfl⟩, ⟨_, rfl, rfl, rfl, rfl⟩⟩

/-- C2: on the code as written the /docs handler does reject non-privileged
callers outside development with a 403, but a privileged caller (or any
caller in development) does not receive the documentation page: building
the page reads settings.API_V1_STR, an attribute the Settings class does
not define, so the handler raises AttributeError instead. -/
theorem docs_endpoint_gate_and_page_failure :
    custom_swagger_ui_html { defaultSettings [] with ENVIRONMENT := "production" }
        { is_superuser := false } =
      DocsResponse.httpError 403 "Not authorized to access documentation" ∧
    custom_swagger_ui_html { defaultSettings [] with ENVIRONMENT := "production" }
        { is_superuser := true } = DocsResponse.attrError "API_V1_STR" ∧
    custom_swagger_ui_html { defaultSettings [] with ENVIRONMENT := "development" }
        { is_superuser := false } = DocsResponse.attrError "API_V1_STR" ∧
    settingsGetattr (defaultSettings []) "API_V1_STR" = none ∧
    settingsGetattr (defaultSettings []) "API_V1_PREFIX" =
      some (AttrValue.str "/api/v1") :=
  ⟨rfl, rfl, rfl, rfl, rfl⟩

/-- C6: the GET / handler returns the operational status and version 1.0.0
together with the service name, and leaves any application state
unchanged. -/
theorem root_endpoint_spec :
    ∀ (α : Type) (st : α),
      (root st).1.status = "operational" ∧
      (root st).1.version = "1.0.0" ∧
      (root st).1.system = "Employee Onboarding Automation System" ∧
      (root st).2 = st :=
  fun _ _ => ⟨rfl, rfl, rfl, rfl⟩

/-- C9: the bootstrap does not construct the application from the settings
object's declared fields: it reads settings.PROJECT_NAME,
settings.API_V1_STR and settings.BACKEND_CORS_ORIGINS, none of which the
Settings class defines (it defines APP_NAME and CORS_ORIGINS), so the
construction raises AttributeError on the first lookup. -/
theorem bootstrap_attr_lookup_failure :
    buildApp (defaultSettings []) =
      Except.error (PyError.attributeError "PROJECT_NAME") ∧
    settingsGetattr (defaultSettings []) "APP_NAME" =
      some (AttrValue.str "Employee Onboarding Automation System") ∧
    settingsGetattr (defaultSettings []) "BACKEND_CORS_ORIGINS" = none ∧
    settingsGetattr (defaultSettings []) "CORS_ORIGINS" =
      some (AttrValue.strList ["*"]) ∧
    settingsGetattr (defaultSettings []) "API_V1_STR" = none :=
  ⟨rfl, rfl, rfl, rfl, rfl⟩

/-- C5: each feature flag takes its documented default when its
environment variable is unset (false everywhere except DIGITAL_SIGNATURES,
which defaults true), and follows the variable case-insensitively when it
is set to a spelling of true or false. -/
theorem feature_flags_spec :
    ∀ getenv : String → Option String,
      ((getenv "FEATURE_AI_DOCUMENT_PROCESSING" = none →
          (FEATURES getenv).lookup "AI_DOCUMENT_PROCESSING" = some false) ∧
        (∀ s, getenv "FEATURE_AI_DOCUMENT_PROCESSING" = some s →
          (pyLower s = "true" →
            (FEATURES getenv).lookup "AI_DOCUMENT_PROCESSING" = some true) ∧
          (pyLower s = "false" →
            (FEATURES getenv).lookup "AI_DOCUMENT_PROCESSING" = some false))) ∧
      ((getenv "FEATURE_AUTOMATED_BACKGROUND_CHECK" = none →
          (FEATURES getenv).lookup "AUTOMATED_BACKGROUND_CHECK" = some false) ∧
        (∀ s, getenv "FEATURE_AUTOMATED_BACKGROUND_CHECK" = some s →
          (pyLower s = "true" →
            (FEATURES getenv).lookup "AUTOMATED_BACKGROUND_CHECK" = some true) ∧
          (pyLower s = "false" →
            (FEATURES getenv).lookup "AUTOMATED_BACKGROUND_CHECK" = some false))) ∧
      ((getenv "FEATURE_DIGITAL_SIGNATURES" = none →
          (FEATURES getenv).lookup "DIGITAL_SIGNATURES" = some true) ∧
        (∀ s, getenv "FEATURE_DIGITAL_SIGNATURES" = some s →
          (pyLower s = "true" →
            (FEATURES getenv).lookup "DIGITAL_SIGNATURES" = some true) ∧
          (pyLower s = "false" →
            (FEATURES getenv).lookup "DIGITAL_SIGNATURES" = some false))) ∧
      ((getenv "FEATURE_INTEGRATION_HRIS" = none →
          (FEATURES getenv).lookup "INTEGRATION_HRIS" = some false) ∧
        (∀ s, getenv "FEATURE_INTEGRATION_HRIS" = some s →
          (pyLower s = "true" →
            (FEATURES getenv).lookup "INTEGRATION_HRIS" = some true) ∧
          (pyLower s = "false" →
            (FEATURES getenv).lookup "INTEGRATION_HRIS" = some false))) := by
  intro g
  refine ⟨⟨?_, ?_⟩, ⟨?_, ?_⟩, ⟨?_, ?_⟩, ⟨?_, ?_⟩⟩ <;>
    first
    | (intro h
       simp only [FEATURES]
       rw [h]
       rfl)
    | (intro s hs
       refine ⟨fun hl => ?_, fun hl => ?_⟩ <;>
         (simp only [FEATURES]
          rw [hs, Option.getD_some, hl]
          rfl))

/-- Witness for feature_flags_spec at concrete environments: all
variables unset, and mixed-case spellings of true and false. -/
theorem feature_flags_spec_witness :
    (FEATURES (fun _ => none)).lookup "DIGITAL_SIGNATURES" = some true ∧
    (FEATURES (fun _ => none)).lookup "AI_DOCUMENT_PROCESSING" = some false ∧
    (FEATURES (fun _ => some "TrUe")).lookup "INTEGRATION_HRIS" = some true ∧
    (FEATURES (fun _ => some "FaLsE")).lookup "DIGITAL_SIGNATURES" = some false := by
  refine ⟨?_, ?_, ?_, ?_⟩
  · exact (feature_flags_spec (fun _ => none)).2.2.1.1 rfl
  · exact (feature_flags_spec (fun _ => none)).1.1 rfl
  · exact ((feature_flags_spec (fun _ => some "TrUe")).2.2.2.2 "TrUe" rfl).1 rfl
  · exact ((feature_flags_spec (fun _ => some "FaLsE")).2.2.1.2 "FaLsE" rfl).2 rfl

/-- Classification of the events following the startup phase of the
lifespan trace: a request event at a position below the number of
requests, then the two shutdown events. -/
theorem lifespan_tail_classify :
    ∀ (reqs : List Nat) (j : Nat) (e : Event),
      (reqs.map Event.request ++ [Event.shutdownLog, Event.shutdownDone]).get? j
          = some e →
      (∃ r, e = Event.request r ∧ j < reqs.length) ∨
      (e = Event.shutdownLog ∧ j = reqs.length) ∨
      (e = Event.shutdownDone ∧ j = reqs.length + 1) := by
  intro reqs
  induction reqs with
  | nil =>
    intro j e h
    match j with
    | 0 =>
      simp only [List.map_nil, List.nil_append, List.get?_cons_zero,
        Option.some.injEq] at h
      exact Or.inr (Or.inl ⟨h.symm, rfl⟩)
    | 1 =>
      simp only [List.map_nil, List.nil_append, List.get?_cons_succ,
        List.get?_cons_zero, Option.some.injEq] at h
      exact Or.inr (Or.inr ⟨h.symm, rfl⟩)
    | Nat.succ (Nat.succ n) =>
      simp only [List.map_nil, List.nil_append, List.get?_cons_succ] at h
      simp at h
  | cons a rs ih =>
    intro j e h
    match j with
    | 0 =>
      simp only [List.map_cons, List.cons_append, List.get?_cons_zero,
        Option.some.injEq] at h
      exact Or.inl ⟨a, h.symm, by simp⟩
    | Nat.succ m =>
      simp only [List.map_cons, List.cons_append, List.get?_cons_succ] at h
      rcases ih m e h with ⟨r, he, hj⟩ | ⟨he, hj⟩ | ⟨he, hj⟩
      · exact Or.inl ⟨r, he, by simp only [List.length_cons]; omega⟩
      · exact Or.inr (Or.inl ⟨he, by simp only [List.length_cons]; omega⟩)
      · exact Or.inr (Or.inr ⟨he, by simp only [List.length_cons]; omega⟩)

/-- Full positional classification of the lifespan trace: the five startup
events sit at positions 0 through 4, requests fill positions 5 up to the
request count, and the shutdown events close the trace. -/
theorem lifespan_get_classify :
    ∀ (reqs : List Nat) (i : Nat) (e : Event),
      (lifespanTrace reqs).get? i = some e →
      (i = 0 ∧ e = Event.startupLog) ∨ (i = 1 ∧ e = Event.loggingInit) ∨
      (i = 2 ∧ e = Event.tablesLog) ∨ (i = 3 ∧ e = Event.createTables) ∨
      (i = 4 ∧ e = Event.startupDone) ∨
      (∃ r, e = Event.request r ∧ 5 ≤ i ∧ i < 5 + reqs.length) ∨
      (e = Event.shutdownLog ∧ i = 5 + reqs.length) ∨
      (e = Event.shutdownDone ∧ i = 6 + reqs.length) := by
  intro reqs i e h
  match i with
  | 0 =>
    simp only [lifespanTrace, List.cons_append, List.nil_append,
      List.get?_cons_zero, Option.some.injEq] at h
    exact Or.inl ⟨rfl, h.symm⟩
  | 1 =>
    simp only [lifespanTrace, List.cons_append, List.nil_append,
      List.get?_cons_succ, List.get?_cons_zero, Option.some.injEq] at h
    exact Or.inr (Or.inl ⟨rfl, h.symm⟩)
  | 2 =>
    simp only [lifespanTrace, List.cons_append, List.nil_append,
      List.get?_cons_succ, List.get?_cons_zero, Option.some.injEq] at h
    exact Or.inr (Or.inr (Or.inl ⟨rfl, h.symm⟩))
  | 3 =>
    simp only [lifespanTrace, List.cons_append, List.nil_append,
      List.get?_cons_succ, List.get?_cons_zero, Option.some.injEq] at h
    exact Or.inr (Or.inr (Or.inr (Or.inl ⟨rfl, h.symm⟩)))
  | 4 =>
    simp only [lifespanTrace, List.cons_append, List.nil_append,
      List.get?_cons_succ, List.get?_cons_zero, Option.some.injEq] at h
    exact Or.inr (Or.inr (Or.inr (Or.inr (Or.inl ⟨rfl, h.symm⟩))))
  | Nat.succ (Nat.succ (Nat.succ (Nat.succ (Nat.succ m)))) =>
    simp only [lifespanTrace, List.cons_append, List.nil_append,
      List.get?_cons_succ] at h
    rcases lifespan_tail_classify reqs m e h with ⟨r, he, hj⟩ | ⟨he, hj⟩ | ⟨he, hj⟩
    · exact Or.inr (Or.inr (Or.inr (Or.inr (Or.inr (Or.inl
        ⟨r, he, by omega, by omega⟩)))))
    · exact Or.inr (Or.inr (Or.inr (Or.inr (Or.inr (Or.inr (Or.inl
        ⟨he, by omega⟩))))))
    · exact Or.inr (Or.inr (Or.inr (Or.inr (Or.inr (Or.inr (Or.inr
        ⟨he, by omega⟩))))))

/-- C8: in every run of the application lifespan, logging initialization
and database schema creation precede every served request, and the
shutdown logging follows every served request; requests are never served
before schema creation has completed. -/
theorem lifespan_ordering :
    ∀ reqs : List Nat,
      (∀ i j r, (lifespanTrace reqs).get? i = some Event.createTables →
        (lifespanTrace reqs).get? j = some (Event.request r) → i < j) ∧
      (∀ i j r, (lifespanTrace reqs).get? i = some Event.loggingInit →
        (lifespanTrace reqs).get? j = some (Event.request r) → i < j) ∧
      (∀ j k r, (lifespanTrace reqs).get? j = some (Event.request r) →
        (lifespanTrace reqs).get? k = some Event.shutdownLog → j < k) := by
  intro reqs
  refine ⟨?_, ?_, ?_⟩
  · intro i j r hi hj
    rcases lifespan_get_classify reqs i _ hi with ⟨hi', he⟩ | ⟨hi', he⟩ | ⟨hi', he⟩ |
        ⟨hi', he⟩ | ⟨hi', he⟩ | ⟨ra, he, hlo, hhi⟩ | ⟨he, hi'⟩ | ⟨he, hi'⟩ <;>
      try simp at he
    rcases lifespan_get_classify reqs j _ hj with ⟨hj', hf⟩ | ⟨hj', hf⟩ | ⟨hj', hf⟩ |
        ⟨hj', hf⟩ | ⟨hj', hf⟩ | ⟨rb, hf, hlo, hhi⟩ | ⟨hf, hj'⟩ | ⟨hf, hj'⟩ <;>
      try simp at hf
    omega
  · intro i j r hi hj
    rcases lifespan_get_classify reqs i _ hi with ⟨hi', he⟩ | ⟨hi', he⟩ | ⟨hi', he⟩ |
        ⟨hi', he⟩ | ⟨hi', he⟩ | ⟨ra, he, hlo, hhi⟩ | ⟨he, hi'⟩ | ⟨he, hi'⟩ <;>
      try simp at he
    rcases lifespan_get_classify reqs j _ hj with ⟨hj', hf⟩ | ⟨hj', hf⟩ | ⟨hj', hf⟩ |
        ⟨hj', hf⟩ | ⟨hj', hf⟩ | ⟨rb, hf, hlo, hhi⟩ | ⟨hf, hj'⟩ | ⟨hf, hj'⟩ <;>
      try simp at hf
    omega
  · intro j k r hj hk
    rcases lifespan_get_classify reqs j _ hj with ⟨hj', hf⟩ | ⟨hj', hf⟩ | ⟨hj', hf⟩ |
        ⟨hj', hf⟩ | ⟨hj', hf⟩ | ⟨rb, hf, hlo, hhi⟩ | ⟨hf, hj'⟩ | ⟨hf, hj'⟩ <;>
      try simp at hf
    rcases lifespan_get_classify reqs k _ hk with ⟨hk', hg⟩ | ⟨hk', hg⟩ | ⟨hk', hg⟩ |
        ⟨hk', hg⟩ | ⟨hk', hg⟩ | ⟨rc, hg, hlo2, hhi2⟩ | ⟨hg, hk'⟩ | ⟨hg, hk'⟩ <;>
      try simp at hg
    omega

/-- Witness for lifespan_ordering on the one-request trace: schema
creation at position 3 and logging initialization at position 1 precede
the request at position 5, which precedes the shutdown logging at
position 6. -/
theorem lifespan_ordering_witness : (3 : Nat) < 5 ∧ (1 : Nat) < 5 ∧ (5 : Nat) < 6 :=
  ⟨(lifespan_ordering [7]).1 3 5 7 rfl rfl,
    (lifespan_ordering [7]).2.1 1 5 7 rfl rfl,
    (lifespan_ordering [7]).2.2 5 6 7 rfl rfl⟩

/-- Unfolding of one step of create_all. -/
theorem create_all_cons (n : String) (d : List String) (db : List Table) :
    create_all (n :: d) db =
      create_all d
        (if hasTable db n then db else db ++ [{ name := n, rows := [] }]) := rfl

/-- Tables present before create_all are still present, unchanged,
afterwards. -/
theorem mem_create_all :
    ∀ (d : List String) (db : List Table) (t : Table), t ∈ db → t ∈ create_all d db := by
  intro d
  induction d with
  | nil => intro db t ht; exact ht
  | cons n d' ih =>
    intro db t ht
    rw [create_all_cons]
    apply ih
    cases h : hasTable db n with
    | true => simpa [h] using ht
    | false => simp [ht]

/-- A table name present before create_all is present afterwards. -/
theorem hasTable_create_all_mono :
    ∀ (d : List String) (db : List Table) (n : String),
      hasTable db n = true → hasTable (create_all d db) n = true := by
  intro d
  induction d with
  | nil => intro db n h; exact h
  | cons m d' ih =>
    intro db n h
    rw [create_all_cons]
    apply ih
    cases hm : hasTable db m with
    | true => simpa [hm] using h
    | false =>
      simp only [hm, if_neg, Bool.false_eq_true, not_false_eq_true, hasTable,
        List.any_append]
      simp only [hasTable] at h
      simp [h]

/-- Every declared table name exists after create_all. -/
theorem create_all_declared_present :
    ∀ (d : List String) (db : List Table) (n : String),
      n ∈ d → hasTable (create_all d db) n = true := by
  intro d
  induction d with
  | nil => intro db n h; cases h
  | cons m d' ih =>
    intro db n h
    rw [create_all_cons]
    rcases List.mem_cons.mp h with rfl | hmem
    · apply hasTable_create_all_mono
      cases hm : hasTable db n with
      | true => simp [hm]
      | false => simp [hm, hasTable, List.any_append]
    · exact ih _ n hmem

/-- create_all is the identity when every declared table already
exists. -/
theorem create_all_noop :
    ∀ (d : List String) (db : List Table),
      (∀ n, n ∈ d → hasTable db n = true) → create_all d db = db := by
  intro d
  induction d with
  | nil => intro db _; rfl
  | cons m d' ih =>
    intro db h
    rw [create_all_cons]
    have h0 : hasTable db m = true := h m (List.mem_cons_self m d')
    rw [if_pos h0]
    exact ih db fun n hn => h n (List.mem_cons_of_mem m hn)

/-- Every table after create_all was either already there or is a fresh,
empty, declared table that was missing. -/
theorem create_all_mem_inv :
    ∀ (d : List String) (db : List Table) (t : Table),
      t ∈ create_all d db →
      t ∈ db ∨ (t.rows = [] ∧ t.name ∈ d ∧ hasTable db t.name = false) := by
  intro d
  induction d with
  | nil => intro db t h; exact Or.inl h
  | cons m d' ih =>
    intro db t h
    rw [create_all_cons] at h
    rcases ih _ t h with h1 | ⟨hr, hd, hht⟩
    · cases hm : hasTable db m with
      | true => rw [hm, if_pos rfl] at h1; exact Or.inl h1
      | false =>
        rw [hm] at h1
        simp only [Bool.false_eq_true, if_neg, not_false_eq_true] at h1
        rcases List.mem_append.mp h1 with h2 | h2
        · exact Or.inl h2
        · rcases List.mem_singleton.mp h2 with rfl
          exact Or.inr ⟨rfl, List.mem_cons_self m d', hm⟩
    · cases hm : hasTable db m with
      | true =>
        rw [hm, if_pos rfl] at hht
        exact Or.inr ⟨hr, List.mem_cons_of_mem m hd, hht⟩
      | false =>
        rw [hm] at hht
        simp only [Bool.false_eq_true, if_neg, not_false_eq_true, hasTable,
          List.any_append, Bool.or_eq_false_iff] at hht
        refine Or.inr ⟨hr, List.mem_cons_of_mem m hd, ?_⟩
        simpa [hasTable] using hht.1

/-- C7: startup schema creation is idempotent and safe: running it again
changes nothing, it never drops or modifies an existing table, every
declared table exists afterwards, and the only tables it adds are empty
tables for declared names that were missing. -/
theorem create_all_idempotent_safe :
    ∀ (declared : List String) (db : List Table),
      create_all declared (create_all declared db) = create_all declared db ∧
      (∀ t, t ∈ db → t ∈ create_all declared db) ∧
      (∀ n, n ∈ declared → hasTable (create_all declared db) n = true) ∧
      (∀ t, t ∈ create_all declared db →
        t ∈ db ∨ (t.rows = [] ∧ t.name ∈ declared ∧ hasTable db t.name = false)) := by
  intro declared db
  refine ⟨?_, ?_, ?_, ?_⟩
  · exact create_all_noop declared _ fun n hn => create_all_declared_present declared db n hn
  · exact fun t ht => mem_create_all declared db t ht
  · exact fun n hn => create_all_declared_present declared db n hn
  · exact fun t ht => create_all_mem_inv declared db t ht

/-- Witness for create_all_idempotent_safe on a concrete database holding
one populated table, with one declared table missing. -/
theorem create_all_idempotent_safe_witness :
    Table.mk "users" ["alice"] ∈
      create_all ["employees", "users"] [Table.mk "users" ["alice"]] ∧
    hasTable (create_all ["employees", "users"] [Table.mk "users" ["alice"]])
      "employees" = true ∧
    create_all ["employees", "users"]
        (create_all ["employees", "users"] [Table.mk "users" ["alice"]]) =
      create_all ["employees", "users"] [Table.mk "users" ["alice"]] :=
  ⟨(create_all_idempotent_safe ["employees", "users"] [Table.mk "users" ["alice"]]).2.1
      (Table.mk "users" ["alice"]) (by decide),
    (create_all_idempotent_safe ["employees", "users"] [Table.mk "users" ["alice"]]).2.2.1
      "employees" (by decide),
    (create_all_idempotent_safe ["employees", "users"] [Table.mk "users" ["alice"]]).1⟩

/-- Concatenation of strings concatenates their character lists. -/
theorem str_toList_append (a b : String) : (a ++ b).toList = a.toList ++ b.toList :=
  String.data_append a b

/-- Splitting a comma-free prefix followed by a comma emits exactly that
prefix as one field. -/
theorem splitCommaAux_append :
    ∀ (l rest acc : List Char), ',' ∉ l →
      splitCommaAux (l ++ ',' :: rest) acc =
        (acc.reverse ++ l) :: splitCommaAux rest [] := by
  intro l
  induction l with
  | nil => intro rest acc _; simp [splitCommaAux]
  | cons c l' ih =>
    intro rest acc hl
    have hc : ¬ c = ',' := fun h => hl (h ▸ List.mem_cons_self c l')
    have hl' : ',' ∉ l' := fun h => hl (List.mem_cons_of_mem c h)
    simp only [List.cons_append, splitCommaAux, if_neg hc, List.append_eq]
    rw [ih rest (c :: acc) hl']
    simp

/-- Splitting a comma-free string yields that one field. -/
theorem splitCommaAux_no_comma :
    ∀ (l acc : List Char), ',' ∉ l → splitCommaAux l acc = [acc.reverse ++ l] := by
  intro l
  induction l with
  | nil => intro acc _; simp [splitCommaAux]
  | cons c l' ih =>
    intro acc hl
    have hc : ¬ c = ',' := fun h => hl (h ▸ List.mem_cons_self c l')
    have hl' : ',' ∉ l' := fun h => hl (List.mem_cons_of_mem c h)
    simp only [splitCommaAux, if_neg hc]
    rw [ih (c :: acc) hl']
    simp

/-- Python split on comma inverts Python join on comma for a nonempty list
of comma-free fields. -/
theorem pySplitComma_joinComma :
    ∀ xs : List String, xs ≠ [] → (∀ x ∈ xs, ',' ∉ x.toList) →
      pySplitComma (joinComma xs) = xs := by
  intro xs
  induction xs with
  | nil => intro h _; cases h rfl
  | cons x xs' ih =>
    intro _ hnc
    cases xs' with
    | nil =>
      show (splitCommaAux (joinComma [x]).toList []).map String.mk = [x]
      rw [show joinComma [x] = x from rfl,
        splitCommaAux_no_comma x.toList [] (hnc x (List.mem_cons_self x []))]
      simp
    | cons y ys =>
      show (splitCommaAux (joinComma (x :: y :: ys)).toList []).map String.mk = x :: y :: ys
      have hx : ',' ∉ x.toList := hnc x (List.mem_cons_self x (y :: ys))
      have hrest : ∀ z ∈ y :: ys, ',' ∉ z.toList :=
        fun z hz => hnc z (List.mem_cons_of_mem x hz)
      have hj : (joinComma (x :: y :: ys)).toList =
          x.toList ++ ',' :: (joinComma (y :: ys)).toList := by
        show ((x ++ ",") ++ joinComma (y :: ys)).toList = _
        rw [str_toList_append, str_toList_append]
        simp [String.toList]
      rw [hj, splitCommaAux_append x.toList _ [] hx]
      simp only [List.map_cons, List.reverse_nil, List.nil_append]
      have := ih (by simp) hrest
      simp only [pySplitComma] at this
      rw [this]
      rfl

/-- Counterexample to C3 as stated: for the empty list of origins, the
comma-joined string is the empty string, which parses to a list holding
one empty origin, while the list form parses to the empty list. -/
theorem cors_string_list_counterexample :
    validate_cors_origins (CorsValue.str (joinComma [])) = Except.ok [""] ∧
    validate_cors_origins (CorsValue.list []) = Except.ok [] ∧
    ([""] : List String) ≠ [] :=
  ⟨rfl, rfl, by decide⟩

/-- C3 amended: for every nonempty list of origin strings in which no
element contains a comma, every element is already stripped, and whose
comma-joined form does not start with an opening bracket, parsing the
joined string yields the same normalized list as parsing the list
directly. -/
theorem cors_string_list_agree :
    ∀ xs : List String, xs ≠ [] → (∀ x ∈ xs, ',' ∉ x.toList) →
      (∀ x ∈ xs, pyStrip x = x) →
      startsWithBracket (joinComma xs) = false →
      validate_cors_origins (CorsValue.str (joinComma xs)) =
        validate_cors_origins (CorsValue.list xs) := by
  intro xs hne hnc hst hbr
  simp only [validate_cors_origins, hbr, if_pos]
  rw [pySplitComma_joinComma xs hne hnc, List.map_congr_left hst, List.map_id']

/-- Witness for cors_string_list_agree on two concrete origins. -/
theorem cors_string_list_agree_witness :
    validate_cors_origins
        (CorsValue.str (joinComma ["https://a.example", "https://b.example"])) =
      validate_cors_origins (CorsValue.list ["https://a.example", "https://b.example"]) :=
  cors_string_list_agree ["https://a.example", "https://b.example"]
    (by decide) (by decide) (by decide) (by decide)

/-- C4: a malformed (unparsable) string supplied for the CORS_ORIGINS
setting aborts the settings load with an error rather than succeeding with
a substituted value: a string entering the json.loads branch whose JSON
parse fails makes the whole load return the JSON decode error. -/
theorem malformed_cors_aborts_load :
    ∀ (s : String) (entropy : List Nat),
      startsWithBracket s = true → jsonLoads s = none →
      loadSettings { CORS_ORIGINS := some (CorsValue.str s) } entropy =
        Except.error PyError.jsonDecodeError := by
  intro s entropy hb hj
  simp only [loadSettings, validate_cors_origins, hb, hj, Bind.bind, Except.bind,
    Bool.true_eq_false, if_neg, not_false_eq_true]

/-- Witness for malformed_cors_aborts_load at the concrete malformed
origins value starting with a bracket. -/
theorem malformed_cors_aborts_load_witness :
    startsWithBracket "[oops" = true ∧ jsonLoads "[oops" = none ∧
    loadSettings { CORS_ORIGINS := some (CorsValue.str "[oops") } [] =
      Except.error PyError.jsonDecodeError :=
  ⟨rfl, rfl, malformed_cors_aborts_load "[oops" [] rfl rfl⟩

/-- Decoding inverts encoding on every six-bit group. -/
theorem b64Char_roundtrip : ∀ n < 64, b64Index (b64Char n) = some n := by decide

/-- b64decode is a left inverse of b64encode on byte lists, so the
unpadded URL-safe encoding loses no information. -/
theorem b64_decode_encode :
    ∀ bs : List Nat, (∀ b ∈ bs, b < 256) → b64decode (b64encode bs) = some bs
  | [], _ => rfl
  | [b1], h => by
    have h1 : b1 < 256 := h b1 (by simp)
    have e1 := b64Char_roundtrip (b1 / 4) (by omega)
    have e2 := b64Char_roundtrip (b1 % 4 * 16) (by omega)
    simp only [b64encode, b64decode, e1, e2, Option.bind_eq_bind, Option.some_bind,
      Option.some.injEq, List.cons.injEq, and_true]
    omega
  | [b1, b2], h => by
    have h1 : b1 < 256 := h b1 (by simp)
    have h2 : b2 < 256 := h b2 (by simp)
    have e1 := b64Char_roundtrip (b1 / 4) (by omega)
    have e2 := b64Char_roundtrip (b1 % 4 * 16 + b2 / 16) (by omega)
    have e3 := b64Char_roundtrip (b2 % 16 * 4) (by omega)
    simp only [b64encode, b64decode, e1, e2, e3, Option.bind_eq_bind,
      Option.some_bind, Option.some.injEq, List.cons.injEq, and_true]
    constructor <;> omega
  | b1 :: b2 :: b3 :: rest, h => by
    have h1 : b1 < 256 := h b1 (by simp)
    have h2 : b2 < 256 := h b2 (by simp)
    have h3 : b3 < 256 := h b3 (by simp)
    have hrest : ∀ b ∈ rest, b < 256 := fun b hb => h b (by simp [hb])
    have ihr := b64_decode_encode rest hrest
    have e1 := b64Char_roundtrip (b1 / 4) (by omega)
    have e2 := b64Char_roundtrip (b1 % 4 * 16 + b2 / 16) (by omega)
    have e3 := b64Char_roundtrip (b2 % 16 * 4 + b3 / 64) (by omega)
    have e4 := b64Char_roundtrip (b3 % 64) (by omega)
    simp only [b64encode, b64decode, e1, e2, e3, e4, ihr, Option.bind_eq_bind,
      Option.some_bind, Option.some.injEq, List.cons.injEq, and_true]
    refine ⟨by omega, by omega, by omega⟩

/-- b64encode is injective on byte lists. -/
theorem b64encode_inj :
    ∀ a b : List Nat, (∀ x ∈ a, x < 256) → (∀ x ∈ b, x < 256) →
      b64encode a = b64encode b → a = b := by
  intro a b ha hb h
  have hd := b64_decode_encode a ha
  rw [h, b64_decode_encode b hb] at hd
  exact (Option.some.inj hd).symm

/-- C10: when SECRET_KEY is not supplied, the loaded settings carry the
key freshly generated from the load's entropy by the default factory, and
the factory is injective on 32-byte entropy, so two loads drawing
different entropy always produce different SECRET_KEY values. -/
theorem secret_key_fresh_and_distinct :
    (∀ (inp : SettingsInput) (entropy : List Nat) (s : Settings),
        inp.SECRET_KEY = none → loadSettings inp entropy = Except.ok s →
        s.SECRET_KEY = tokenUrlsafe entropy) ∧
    (∀ e1 e2 : List Nat, e1.length = 32 → e2.length = 32 →
        (∀ x ∈ e1, x < 256) → (∀ x ∈ e2, x < 256) → e1 ≠ e2 →
        tokenUrlsafe e1 ≠ tokenUrlsafe e2) := by
  constructor
  · intro inp entropy s hnone hok
    cases hco : inp.CORS_ORIGINS with
    | none =>
      simp only [loadSettings, hco, Bind.bind, Except.bind, Except.ok.injEq] at hok
      rw [← hok, hnone]
      rfl
    | some v =>
      cases hv : validate_cors_origins v with
      | error e =>
        simp only [loadSettings, hco, hv, Bind.bind, Except.bind] at hok
        cases hok
      | ok cors =>
        simp only [loadSettings, hco, hv, Bind.bind, Except.bind,
          Except.ok.injEq] at hok
        rw [← hok, hnone]
        rfl
  · intro e1 e2 _ _ ha hb hne heq
    apply hne
    apply b64encode_inj e1 e2 ha hb
    have heq2 : String.mk (b64encode e1) = String.mk (b64encode e2) := heq
    injection heq2

/-- Witness for secret_key_fresh_and_distinct at two concrete 32-byte
entropy draws. -/
theorem secret_key_fresh_and_distinct_witness :
    (∃ s, loadSettings {} (List.replicate 32 0) = Except.ok s ∧
        s.SECRET_KEY = tokenUrlsafe (List.replicate 32 0)) ∧
    tokenUrlsafe (List.replicate 32 0) ≠ tokenUrlsafe (1 :: List.replicate 31 0) := by
  constructor
  · exact ⟨_, rfl, secret_key_fresh_and_distinct.1 {} (List.replicate 32 0) _ rfl rfl⟩
  · exact secret_key_fresh_and_distinct.2 (List.replicate 32 0)
      (1 :: List.replicate 31 0) (by decide) (by decide) (by decide) (by decide)
      (by decide)
